import Mathlib

/-!
# Verification of the weewx RESTful delivery engine (`bin/weecore/restx.py`, `bin/weewx/restx.py`)

Shallow embedding of the generic delivery engine: the worker loop with backlog
trimming (`RESTThread.run_loop`), the staleness/rate gate
(`RESTThread.skip_this_post`), record enrichment (`RESTThread.get_record`,
`AWEKASThread.get_record`), the retrying transport
(`RESTThread.post_with_retries`), the Ambient URL formatter
(`AmbientThread.format_url`) and the CWOP socket failover loop
(`CWOPThread.send_packet`).

Modelling conventions:
* Timestamps and unit-system tags are `Int`; `time.time()` is an ambient
  parameter `now`.
* The `Queue.Queue` of the worker is a `List (Option R)`: `none` is the `None`
  stop marker, list head is the oldest item; `queue.get` pops the head and
  `queue.qsize` is the length of the remainder (no concurrent producer during
  one drain).
* Python exceptions are values of `PyExc`; raising code returns
  `Except PyExc _`.
* A SQL cell that may be NULL is an `Option Int`; a `fetchone` result that may
  be absent is one more `Option` layer.
-/

/-- Python exception classes seen by the engine.  `failedPost`, `badLogin`,
`connectError`, `sendError` are the classes declared at the top of
`weecore/restx.py`; `valueError` is the unit-mismatch `ValueError` of
`RESTThread.get_record`; `typeError` is the `TypeError` Python raises when
subscripting `None`; `otherExc` stands for any further exception class. -/
inductive PyExc where
  | failedPost
  | badLogin
  | connectError
  | sendError
  | valueError
  | typeError
  | otherExc
  deriving DecidableEq, Repr

/-- The staleness test of `RESTThread.skip_this_post`: `self.stale is not None`
and `time.time() - time_ts > self.stale`. -/
def staleCheck : Option Int → Int → Int → Bool
  | some s, now, time_ts => decide (now - time_ts > s)
  | none, _, _ => false

/-- The rate test of `RESTThread.skip_this_post`: `self.post_interval is not
None` and `time_ts - self.lastpost < self.post_interval`. -/
def intervalCheck : Option Int → Int → Int → Bool
  | some p, lastpost, time_ts => decide (time_ts - lastpost < p)
  | none, _, _ => false

/-- `RESTThread.skip_this_post(self, time_ts)`.  Returns the decision together
with the value of `self.lastpost` after the call (the method assigns
`self.lastpost = time_ts` exactly on the fall-through return `False`). -/
def skip_this_post (stale post_interval : Option Int) (lastpost now time_ts : Int) :
    Bool × Int :=
  if staleCheck stale now time_ts then (true, lastpost)
  else if intervalCheck post_interval lastpost time_ts then (true, lastpost)
  else (false, time_ts)

/-- The evolution of `self.lastpost` across a sequence of calls to
`skip_this_post`; each event is a pair `(now, time_ts)` and the output lists
the value of `self.lastpost` after each call. -/
def gateSequence (stale post_interval : Option Int) :
    Int → List (Int × Int) → List Int
  | _, [] => []
  | lastpost, (now, time_ts) :: evs =>
    let g := skip_this_post stale post_interval lastpost now time_ts
    g.2 :: gateSequence stale post_interval g.2 evs

/-- Why `RESTThread.run_loop` stopped consuming its (finite, modelled) queue:
it is blocked on an empty queue waiting for more items, it dequeued the `None`
stop marker, or an unclassified exception escaped `process_record`
(`except Exception: ... return`). -/
inductive StopReason where
  | blocked
  | stopMarker
  | fatal
  deriving DecidableEq, Repr

/-- Observable trace of one run of `RESTThread.run_loop` over a finite queue:
records discarded by the backlog trim, records skipped by the gate, records
passed to `process_record` with the exception (if any) the call raised, the
value of `self.lastpost` after each `skip_this_post` call, the total seconds
slept in bad-login cooldowns, and why the loop stopped. -/
structure LoopTrace (R : Type) where
  discarded : List R
  skipped : List R
  processed : List (R × Option PyExc)
  lastposts : List Int
  sleeps : Nat
  reason : StopReason
  deriving DecidableEq, Repr

/-- `RESTThread.run_loop`.  `proc r` is the outcome of
`self.process_record(r, archive)` (`none` = returned normally, `some e` = the
exception it raised); `timeOf r` is `r['dateTime']`.  Mirrors the source:
the inner `while True` dequeues, exits on the `None` marker, and keeps the item
only once `self.queue.qsize() <= self.max_backlog`; the gate then either skips
or the record is processed, with `BadLogin` sleeping 3600 s and continuing,
`FailedPost` continuing, and any other exception returning from the loop. -/
def run_loop {R : Type} (max_backlog : Nat) (stale post_interval : Option Int)
    (now : Int) (proc : R → Option PyExc) (timeOf : R → Int) :
    Int → List (Option R) → LoopTrace R
  | _, [] => ⟨[], [], [], [], 0, .blocked⟩
  | _, none :: _ => ⟨[], [], [], [], 0, .stopMarker⟩
  | lastpost, some r :: rest =>
    if rest.length > max_backlog then
      -- `self.queue.qsize() <= self.max_backlog` fails: go around the inner
      -- loop, abandoning the record just dequeued.
      let t := run_loop max_backlog stale post_interval now proc timeOf lastpost rest
      { t with discarded := r :: t.discarded }
    else
      let g := skip_this_post stale post_interval lastpost now (timeOf r)
      if g.1 then
        let t := run_loop max_backlog stale post_interval now proc timeOf g.2 rest
        { t with skipped := r :: t.skipped, lastposts := g.2 :: t.lastposts }
      else
        match proc r with
        | some .badLogin =>
          let t := run_loop max_backlog stale post_interval now proc timeOf g.2 rest
          { t with processed := (r, some .badLogin) :: t.processed,
                   lastposts := g.2 :: t.lastposts,
                   sleeps := 3600 + t.sleeps }
        | some .failedPost =>
          let t := run_loop max_backlog stale post_interval now proc timeOf g.2 rest
          { t with processed := (r, some .failedPost) :: t.processed,
                   lastposts := g.2 :: t.lastposts }
        | some e =>
          ⟨[], [], [(r, some e)], [g.2], 0, .fatal⟩
        | none =>
          let t := run_loop max_backlog stale post_interval now proc timeOf g.2 rest
          { t with processed := (r, none) :: t.processed,
                   lastposts := g.2 :: t.lastposts }

/-- Outcome of one delivery attempt inside `RESTThread.post_with_retries`:
`transportErr` is one of the four exception classes caught by the `except`
clause (`urllib2.URLError`, `socket.error`, `httplib.BadStatusLine`,
`httplib.IncompleteRead`); `raised e` is any other exception escaping
`post_request` or `check_response` uncaught; `response code check` is a
completed HTTP exchange with status `code`, where `check` is the exception (if
any) that `self.check_response(response)` would raise on it. -/
inductive AttemptOutcome where
  | transportErr
  | raised (e : PyExc)
  | response (code : Int) (check : Option PyExc)
  deriving DecidableEq, Repr

/-- The `for _count in range(self.max_tries)` loop of
`RESTThread.post_with_retries`: `left` is the number of loop iterations still
allowed and `count` the current value of `_count`.  Returns the number of
attempts performed together with the result: `.ok ()` for a clean return,
`.error e` for the exception raised (`FailedPost` from the for-else clause on
exhaustion, or whatever `check_response`/`post_request` raised uncaught). -/
def post_with_retries_go (att : Nat → AttemptOutcome) :
    Nat → Nat → Nat × Except PyExc Unit
  | 0, _ => (0, .error .failedPost)
  | left + 1, count =>
    match att count with
    | .raised e => (1, .error e)
    | .transportErr =>
      let r := post_with_retries_go att left (count + 1)
      (r.1 + 1, r.2)
    | .response code check =>
      if code = 200 then
        match check with
        | none => (1, .ok ())
        | some e => (1, .error e)
      else
        let r := post_with_retries_go att left (count + 1)
        (r.1 + 1, r.2)

/-- `RESTThread.post_with_retries(self, request)` with `att n` the outcome of
attempt number `n` (0-based).  Result: attempts performed and exception
raised, if any. -/
def post_with_retries (att : Nat → AttemptOutcome) (max_tries : Nat) :
    Nat × Except PyExc Unit :=
  post_with_retries_go att max_tries 0

/-- An attempt that goes around the retry loop: either one of the four caught
transport exceptions, or a completed exchange with a non-success status
code. -/
def attemptFails (att : Nat → AttemptOutcome) (c : Nat) : Prop :=
  att c = .transportErr ∨ ∃ code check, att c = .response code check ∧ code ≠ 200

/-!
## The archive collaborator and observation records

`weedb`/`weecore.archive` are external collaborators (spec §6): the archive is
modelled as a table of rows with the columns the engine queries, and
`getSql` by the sqlite semantics of the two statements the engine issues
(`SELECT SUM(rain), MIN(usUnits), MAX(usUnits) ... WHERE dateTime>(=)? AND
dateTime<=?` and `SELECT rainRate ... WHERE dateTime=?`).  A missing column
makes `getSql` raise `weedb.OperationalError`, modelled by the two
`has...` flags.
-/

/-- One row of the `archive` table, restricted to the columns the delivery
engine queries.  `rain` and `rainRate` cells may be NULL. -/
structure ArchiveRow where
  dateTime : Int
  usUnits : Int
  rain : Option Int
  rainRate : Option Int
  deriving DecidableEq, Repr

/-- The archive database: which of the optional columns exist in the schema,
and the rows. -/
structure Archive where
  hasRain : Bool
  hasRainRate : Bool
  rows : List ArchiveRow

/-- `SUM(c)` over the listed cells: NULLs are ignored; NULL when no non-NULL
cell remains (in particular when no row matched). -/
def sqlSum (vs : List (Option Int)) : Option Int :=
  let l := vs.filterMap id
  if l.isEmpty then none else some l.sum

/-- `MIN(c)` over non-NULL cells; NULL when no row matched. -/
def sqlMin (vs : List Int) : Option Int :=
  vs.foldr (fun x acc => match acc with
    | none => some x
    | some m => some (min x m)) none

/-- `MAX(c)` over non-NULL cells; NULL when no row matched. -/
def sqlMax (vs : List Int) : Option Int :=
  vs.foldr (fun x acc => match acc with
    | none => some x
    | some m => some (max x m)) none

/-- The rows matched by `WHERE dateTime>? AND dateTime<=?` (when `loIncl` is
`false`) or `WHERE dateTime>=? AND dateTime<=?` (when `loIncl` is `true`). -/
def windowRows (ar : Archive) (loIncl : Bool) (lo hi : Int) : List ArchiveRow :=
  ar.rows.filter fun row =>
    (if loIncl then decide (lo ≤ row.dateTime) else decide (lo < row.dateTime))
      && decide (row.dateTime ≤ hi)

/-- The `(SUM(rain), MIN(usUnits), MAX(usUnits))` aggregate row over a
dateTime window. -/
def rainAgg (ar : Archive) (loIncl : Bool) (lo hi : Int) :
    Option Int × Option Int × Option Int :=
  let rows := windowRows ar loIncl lo hi
  (sqlSum (rows.map (fun row => row.rain)),
   sqlMin (rows.map (fun row => row.usUnits)),
   sqlMax (rows.map (fun row => row.usUnits)))

/-- `archive.getSql("SELECT SUM(rain), MIN(usUnits), MAX(usUnits) FROM archive
WHERE dateTime>(=)? AND dateTime<=?", ...)`: raises `weedb.OperationalError`
(`.error ()`) when the schema lacks the `rain` column; otherwise `fetchone` of
an aggregate query always yields one row. -/
def Archive.rainSumSql (ar : Archive) (loIncl : Bool) (lo hi : Int) :
    Except Unit (Option (Option Int × Option Int × Option Int)) :=
  if ar.hasRain then .ok (some (rainAgg ar loIncl lo hi)) else .error ()

/-- `archive.getSql('select rainRate from archive where dateTime=?', ...)`:
raises `weedb.OperationalError` when the schema lacks the `rainRate` column;
otherwise the first matching row's cell, or `none` when no row matches
(`fetchone` returned `None`). -/
def Archive.rainRateSql (ar : Archive) (t : Int) : Except Unit (Option (Option Int)) :=
  if ar.hasRainRate then
    .ok ((ar.rows.find? fun row => row.dateTime == t).map fun row => row.rainRate)
  else .error ()

/-- An observation record: its timestamp, its unit-system tag, and the other
observation fields.  `fields k = none` models a key absent from the dict,
`fields k = some none` a key present with value `None`, and
`fields k = some (some v)` a key with a (numeric) value. -/
structure Rec where
  dateTime : Int
  usUnits : Int
  fields : String → Option (Option Int)

/-- `record[k] = v` (Python dict assignment, also used with `v = none` to model
an untouched absent key). -/
def Rec.setField (r : Rec) (k : String) (v : Option (Option Int)) : Rec :=
  { r with fields := fun k' => if k' = k then v else r.fields k' }

namespace RESTThread

/-- One derived-rain-field block of `RESTThread.get_record`, for a field whose
current cell is `cur` and whose aggregate query result is `q` (`.error ()` =
`weedb.OperationalError`).  Returns the new cell for the field together with a
flag that is `false` exactly when the `OperationalError` was raised, so that
the enclosing `try` abandons the remaining fields.  A present key skips the
block (`if not _datadict.has_key(...)`); otherwise the aggregate row is
examined: a missing row or NULL sum stores `None`; a non-NULL sum stores the
sum after the unit check `_result[1] == _result[2] == record['usUnits']`,
raising `ValueError` on mismatch. -/
def enrich1 (usUnits : Int) (cur : Option (Option Int))
    (q : Except Unit (Option (Option Int × Option Int × Option Int))) :
    Except PyExc (Option (Option Int) × Bool) :=
  match cur with
  | some v => .ok (some v, true)
  | none =>
    match q with
    | .error _ => .ok (none, false)
    | .ok none => .ok (some none, true)
    | .ok (some (s, u1, u2)) =>
      match s with
      | none => .ok (some none, true)
      | some sv =>
        if u1 == u2 && u2 == some usUnits then .ok (some (some sv), true)
        else .error .valueError

/-- `RESTThread.get_record(self, record, archive)`: copies the record and adds
`hourRain` (window `dateTime > t-3600 AND dateTime <= t`), `rain24` (window
`dateTime > t-24*3600 AND dateTime <= t`) and `dayRain` (window
`dateTime >= startOfDay(t) AND dateTime <= t`) when absent, abandoning the
remaining fields quietly on `weedb.OperationalError` and propagating the
unit-mismatch `ValueError`.  `sod` is `weeutil.weeutil.startOfDay`. -/
def get_record (sod : Int → Int) (ar : Archive) (record : Rec) : Except PyExc Rec :=
  let t := record.dateTime
  match enrich1 record.usUnits (record.fields "hourRain")
      (ar.rainSumSql false (t - 3600) t) with
  | .error e => .error e
  | .ok (h1, c1) =>
    let d1 := record.setField "hourRain" h1
    if !c1 then .ok d1
    else
      match enrich1 record.usUnits (d1.fields "rain24")
          (ar.rainSumSql false (t - 24 * 3600) t) with
      | .error e => .error e
      | .ok (h2, c2) =>
        let d2 := d1.setField "rain24" h2
        if !c2 then .ok d2
        else
          match enrich1 record.usUnits (d2.fields "dayRain")
              (ar.rainSumSql true (sod t) t) with
          | .error e => .error e
          | .ok (h3, _) => .ok (d2.setField "dayRain" h3)

/-- Value-level outcome of one derived-field block of `get_record` in the case
where the `rain` column exists (the aggregate query then returns a row and the
abandon flag stays true): a present key keeps its cell, an absent key receives
the aggregate sum after the unit check, `ValueError` on mismatch. -/
def enrichOne (usUnits : Int) (cur : Option (Option Int))
    (agg : Option Int × Option Int × Option Int) :
    Except PyExc (Option (Option Int)) :=
  match cur with
  | some v => .ok (some v)
  | none =>
    match agg.1 with
    | none => .ok (some none)
    | some sv =>
      if agg.2.1 == agg.2.2 && agg.2.2 == some usUnits then .ok (some (some sv))
      else .error .valueError

/-- A derived-field block that does not raise the unit-mismatch fault: the key
is already present, or the rain sum is NULL, or the units check passes. -/
def stepClean (usUnits : Int) (cur : Option (Option Int))
    (agg : Option Int × Option Int × Option Int) : Prop :=
  cur ≠ none ∨ agg.1 = none ∨
    (agg.2.1 == agg.2.2 && agg.2.2 == some usUnits) = true

end RESTThread

namespace AWEKASThread

/-- `AWEKASThread.get_record(self, record, archive)`: the record enriched by
the superclass, then augmented with `rainRate` from the per-timestamp query.
`weedb.OperationalError` (missing `rainRate` column) is caught and passed
over; otherwise `rr[0]` is stored — and when the query matched no row,
`rr` is `None` and the subscript raises `TypeError`. -/
def get_record (sod : Int → Int) (ar : Archive) (record : Rec) : Except PyExc Rec :=
  match RESTThread.get_record sod ar record with
  | .error e => .error e
  | .ok r =>
    match ar.rainRateSql r.dateTime with
    | .error _ => .ok r
    | .ok (some cell) => .ok (r.setField "rainRate" (some cell))
    | .ok none => .error .typeError

end AWEKASThread

namespace AmbientThread

/-- `AmbientThread._formats`: observation-type name paired with the query
parameter name of its format string (`'dateTime' : 'dateutc=%s'`, ...). -/
def formats : List (String × String) :=
  [("dateTime", "dateutc"),
   ("barometer", "baromin"),
   ("outTemp", "tempf"),
   ("outHumidity", "humidity"),
   ("windSpeed", "windspeedmph"),
   ("windDir", "winddir"),
   ("windGust", "windgustmph"),
   ("dewpoint", "dewptf"),
   ("hourRain", "rainin"),
   ("dayRain", "dailyrainin"),
   ("radiation", "solarradiation"),
   ("UV", "UV"),
   ("realtime", "realtime"),
   ("rtfreq", "rtfreq")]

/-- `record.get(_key) is not None`: the key is in the dict with a non-`None`
value. -/
def cellPresent (cell : Option (Option Int)) : Bool :=
  match cell with
  | some (some _) => true
  | _ => false

/-- The query-string parameter keys of the URL built by
`AmbientThread.format_url`, in order: the four fixed parameters of `_liststr`,
then one parameter per supported type whose value `record.get(_key)` is not
`None`. -/
def format_url_keys (record : String → Option (Option Int)) : List String :=
  "action" :: "ID" :: "PASSWORD" :: "softwaretype" ::
    formats.filterMap fun p => if cellPresent (record p.1) then some p.2 else none

end AmbientThread

namespace CWOPThread

/-- Outcome of one `connect + send login + send packet` exchange inside
`CWOPThread.send_packet`: success (the inner `return`), or one of the two
caught exceptions `weecore.restx.ConnectError` / `weecore.restx.SendError`. -/
inductive SendOutcome where
  | success
  | connectErr
  | sendErr
  deriving DecidableEq, Repr

/-- The inner `for _count in range(self.max_tries)` loop of
`CWOPThread.send_packet` for server `s`: `left` iterations remain and `count`
is the current `_count`.  Returns the attempts made (as `(server, count)`
pairs, in order) and whether one succeeded. -/
def serverTry {S : Type} (oc : S → Nat → SendOutcome) (s : S) :
    Nat → Nat → List (S × Nat) × Bool
  | 0, _ => ([], false)
  | left + 1, count =>
    match oc s count with
    | .success => ([(s, count)], true)
    | .connectErr =>
      let r := serverTry oc s left (count + 1)
      ((s, count) :: r.1, r.2)
    | .sendErr =>
      let r := serverTry oc s left (count + 1)
      ((s, count) :: r.1, r.2)

/-- `CWOPThread.send_packet(self, login, tnc_packet)` with `oc s c` the outcome
of attempt `c` (0-based) against server `s`.  Walks `self.server_list` in
order, each with up to `max_tries` attempts, returning on the first success;
falling off the end raises `FailedPost`.  Result: the attempts performed in
order, and `true` for a clean return / `false` for the `FailedPost`. -/
def send_packet {S : Type} (oc : S → Nat → SendOutcome) (max_tries : Nat) :
    List S → List (S × Nat) × Bool
  | [] => ([], false)
  | s :: rest =>
    let r := serverTry oc s max_tries 0
    if r.2 then r
    else
      let r' := send_packet oc max_tries rest
      (r.1 ++ r'.1, r'.2)

/-- The full attempt plan of `send_packet`: every `(server, count)` pair in
server-major, count-minor order. -/
def attemptPlan {S : Type} (max_tries : Nat) (servers : List S) : List (S × Nat) :=
  servers.flatMap fun s => (List.range max_tries).map fun c => (s, c)

/-- A planned attempt that does not succeed. -/
def isFail {S : Type} (oc : S → Nat → SendOutcome) (p : S × Nat) : Bool :=
  decide (oc p.1 p.2 ≠ .success)

/-- `send_packet` as the spec describes it: run through the attempt plan in
order, stop right after the first success; succeed iff a success exists in the
plan. -/
def send_packet_spec {S : Type} (oc : S → Nat → SendOutcome) (max_tries : Nat)
    (servers : List S) : List (S × Nat) × Bool :=
  let plan := attemptPlan max_tries servers
  (plan.takeWhile (isFail oc) ++ (plan.dropWhile (isFail oc)).take 1,
   !(plan.dropWhile (isFail oc)).isEmpty)

/-- Generic linear scan: walk the list, keeping failing elements, and stop
right after the first non-failing one; report whether one was found. -/
def scan1 {β : Type} (fail : β → Bool) : List β → List β × Bool
  | [] => ([], false)
  | b :: l =>
    if fail b then
      let r := scan1 fail l
      (b :: r.1, r.2)
    else ([b], true)

end CWOPThread

/-- A `process_record` outcome the worker loop survives: normal return,
`FailedPost`, or `BadLogin`. -/
def nonFatal : Option PyExc → Prop
  | none => True
  | some .failedPost => True
  | some .badLogin => True
  | some _ => False

/-- Projection used in concrete counterexamples: the value of field `k` of the
record returned by a `get_record` call, or `none` if it raised. -/
def okField (k : String) : Except PyExc Rec → Option (Option (Option Int))
  | .ok r => some (r.fields k)
  | .error _ => none

/-!
## Theorems
-/

/-- C2 (counterexample).  With `stale = 100`, `post_interval = 300`,
`lastpost = 1000`, a record timestamped 1100 examined at `now = 1100` is *not*
stale (`now - time_ts = 0 ≤ 100`) yet `skip_this_post` returns `True`; with
`post_interval` unset and everything else equal it returns `False` — so the
result is not `now - R.time > S`, and `post_interval` does influence it. -/
theorem skip_this_post_stale_cex :
    (skip_this_post (some 100) (some 300) 1000 1100 1100).1 = true ∧
    ¬ ((1100 : Int) - 1100 > 100) ∧
    (skip_this_post (some 100) none 1000 1100 1100).1 = false := by
  refine ⟨by decide, by decide, by decide⟩

/-- C2 (amended).  With `stale = S` set, `skip_this_post` returns true iff the
record is stale (`now - time_ts > S`) **or** `post_interval` is set and the
rate check fires (`time_ts - lastpost < post_interval`).  In particular
staleness alone always forces a skip, for every `post_interval`; but a
non-stale record may still be skipped by the rate check, so the result is not
independent of `post_interval`. -/
theorem skip_this_post_stale_iff (S : Int) (post_interval : Option Int)
    (lastpost now time_ts : Int) :
    (skip_this_post (some S) post_interval lastpost now time_ts).1 = true ↔
      (now - time_ts > S ∨
        ∃ p, post_interval = some p ∧ time_ts - lastpost < p) := by
  cases post_interval with
  | none =>
    by_cases h : now - time_ts > S <;>
      simp [skip_this_post, staleCheck, intervalCheck, h]
  | some p =>
    by_cases h : now - time_ts > S <;>
      by_cases h2 : time_ts - lastpost < p <;>
        simp [skip_this_post, staleCheck, intervalCheck, h, h2]

/-- The retry loop performs all remaining iterations and falls through to the
for-else `raise FailedPost` when every reachable attempt fails. -/
theorem pwr_go_exhaust (att : Nat → AttemptOutcome) :
    ∀ left count, (∀ i, i < left → attemptFails att (count + i)) →
      post_with_retries_go att left count = (left, .error .failedPost) := by
  intro left
  induction left with
  | zero => intro count _; rfl
  | succ n ih =>
    intro count h
    have h0 := h 0 n.succ_pos
    rw [Nat.add_zero] at h0
    have hrec : post_with_retries_go att n (count + 1) = (n, .error .failedPost) := by
      refine ih (count + 1) fun i hi => ?_
      have := h (i + 1) (by omega)
      rwa [show count + (i + 1) = count + 1 + i by omega] at this
    rcases h0 with h0 | ⟨code, check, heq, hne⟩
    · simp [post_with_retries_go, h0, hrec]
    · simp [post_with_retries_go, heq, hne, hrec]

/-- The retry loop returns right after the first successful attempt. -/
theorem pwr_go_success (att : Nat → AttemptOutcome) :
    ∀ k left count, k < left →
      (∀ i, i < k → attemptFails att (count + i)) →
      att (count + k) = .response 200 none →
      post_with_retries_go att left count = (k + 1, .ok ()) := by
  intro k
  induction k with
  | zero =>
    intro left count hlt _ hsucc
    match left, hlt with
    | n + 1, _ =>
      rw [Nat.add_zero] at hsucc
      simp [post_with_retries_go, hsucc]
  | succ k ih =>
    intro left count hlt hf hsucc
    match left, hlt with
    | n + 1, hlt =>
      have h0 := hf 0 k.succ_pos
      rw [Nat.add_zero] at h0
      have hrec : post_with_retries_go att n (count + 1) = (k + 1, .ok ()) := by
        refine ih n (count + 1) (by omega) (fun i hi => ?_) ?_
        · have := hf (i + 1) (by omega)
          rwa [show count + (i + 1) = count + 1 + i by omega] at this
        · rwa [show count + 1 + k = count + (k + 1) by omega]
      rcases h0 with h0 | ⟨code, check, heq, hne⟩
      · simp [post_with_retries_go, h0, hrec]
      · simp [post_with_retries_go, heq, hne, hrec]

/-- C4.  If every one of the `max_tries` attempts yields a non-success status
code or one of the four classified transport faults, `post_with_retries`
performs exactly `max_tries` attempts and raises `FailedPost`; if attempt `k`
(0-based, so the `(k+1)`-th) is the first to complete with status 200 and a
silent `check_response`, it performs exactly `k + 1` attempts and returns
without fault. -/
theorem post_with_retries_counts (att : Nat → AttemptOutcome) (max_tries : Nat) :
    ((∀ c, c < max_tries → attemptFails att c) →
      post_with_retries att max_tries = (max_tries, .error .failedPost)) ∧
    (∀ k, k < max_tries → (∀ c, c < k → attemptFails att c) →
      att k = .response 200 none →
      post_with_retries att max_tries = (k + 1, .ok ())) := by
  constructor
  · intro h
    exact pwr_go_exhaust att max_tries 0 fun i hi => by simpa using h i hi
  · intro k hk hf hs
    exact pwr_go_success att k max_tries 0 hk
      (fun i hi => by simpa using hf i hi) (by simpa using hs)

/-- C4 (witness): a transport failing all three attempts gives `(3, FailedPost)`;
one failing with status 500 once and then succeeding gives `(2, ok)`. -/
theorem post_with_retries_counts_witness :
    post_with_retries (fun _ => .transportErr) 3 = (3, .error .failedPost) ∧
    post_with_retries
      (fun c => if c = 1 then .response 200 none else .response 500 none) 3 =
      (2, .ok ()) := by
  constructor
  · exact (post_with_retries_counts (fun _ => .transportErr) 3).1
      fun c _ => Or.inl rfl
  · refine (post_with_retries_counts _ 3).2 1 (by omega) (fun c hc => ?_) rfl
    have hc0 : c = 0 := by omega
    subst hc0
    exact Or.inr ⟨500, none, rfl, by decide⟩

/-- C5.  If `check_response` raises `BadLogin` on the first attempt (a
completed exchange with status 200), `post_with_retries` performs exactly one
attempt and the `BadLogin` propagates immediately, for every
`max_tries ≥ 1`: the `except` clause catches only the four transport
exception classes, so `BadLogin` escapes the retry loop. -/
theorem post_with_retries_badlogin_short_circuit (att : Nat → AttemptOutcome)
    (max_tries : Nat) (h0 : att 0 = .response 200 (some .badLogin))
    (hm : 1 ≤ max_tries) :
    post_with_retries att max_tries = (1, .error .badLogin) := by
  match max_tries, hm with
  | n + 1, _ =>
    simp [post_with_retries, post_with_retries_go, h0]

/-- C5 (witness). -/
theorem post_with_retries_badlogin_witness :
    post_with_retries (fun _ => .response 200 (some .badLogin)) 3 =
      (1, .error .badLogin) :=
  post_with_retries_badlogin_short_circuit (fun _ => .response 200 (some .badLogin))
    3 rfl (by omega)

/-- `scan1` computed by `takeWhile`/`dropWhile`. -/
theorem scan1_spec {β : Type} (fail : β → Bool) (l : List β) :
    CWOPThread.scan1 fail l =
      (l.takeWhile fail ++ (l.dropWhile fail).take 1,
       !(l.dropWhile fail).isEmpty) := by
  induction l with
  | nil => rfl
  | cons b l ih =>
    by_cases h : fail b = true <;>
      simp [CWOPThread.scan1, List.takeWhile_cons, List.dropWhile_cons, h, ih]

/-- `scan1` over an append: stop inside the first part if it succeeds there,
else continue into the second. -/
theorem scan1_append {β : Type} (fail : β → Bool) (l₁ l₂ : List β) :
    CWOPThread.scan1 fail (l₁ ++ l₂) =
      (if (CWOPThread.scan1 fail l₁).2 then (CWOPThread.scan1 fail l₁).1
       else (CWOPThread.scan1 fail l₁).1 ++ (CWOPThread.scan1 fail l₂).1,
       (CWOPThread.scan1 fail l₁).2 || (CWOPThread.scan1 fail l₂).2) := by
  induction l₁ with
  | nil => simp [CWOPThread.scan1]
  | cons b l₁ ih =>
    by_cases h : fail b = true
    · cases hb : (CWOPThread.scan1 fail l₁).2 <;>
        simp [CWOPThread.scan1, h, ih, hb]
    · simp [CWOPThread.scan1, h]

/-- The per-server retry loop of `send_packet` is a linear scan over its
attempt numbers. -/
theorem serverTry_eq_scan1 {S : Type} (oc : S → Nat → CWOPThread.SendOutcome)
    (s : S) :
    ∀ left count, CWOPThread.serverTry oc s left count =
      CWOPThread.scan1 (CWOPThread.isFail oc)
        ((List.range' count left).map fun c => (s, c)) := by
  intro left
  induction left with
  | zero => intro count; rfl
  | succ n ih =>
    intro count
    have hr : List.range' count (n + 1) = count :: List.range' (count + 1) n := rfl
    cases h : oc s count <;>
      simp [hr, CWOPThread.serverTry, CWOPThread.scan1, CWOPThread.isFail, h, ih]

/-- `send_packet` is a linear scan over the full server-major attempt plan. -/
theorem send_packet_eq_scan1 {S : Type} (oc : S → Nat → CWOPThread.SendOutcome)
    (max_tries : Nat) :
    ∀ servers : List S,
      CWOPThread.send_packet oc max_tries servers =
        CWOPThread.scan1 (CWOPThread.isFail oc)
          (CWOPThread.attemptPlan max_tries servers) := by
  intro servers
  induction servers with
  | nil => rfl
  | cons s rest ih =>
    have hplan : CWOPThread.attemptPlan max_tries (s :: rest) =
        ((List.range max_tries).map fun c => (s, c)) ++
          CWOPThread.attemptPlan max_tries rest := by
      simp [CWOPThread.attemptPlan]
    have hst' : CWOPThread.serverTry oc s max_tries 0 =
        CWOPThread.scan1 (CWOPThread.isFail oc)
          ((List.range max_tries).map fun c => (s, c)) := by
      rw [serverTry_eq_scan1, ← List.range_eq_range']
    rw [hplan, scan1_append]
    simp only [CWOPThread.send_packet, hst', ih]
    cases hb : (CWOPThread.scan1 (CWOPThread.isFail oc)
        ((List.range max_tries).map fun c => (s, c))).2 <;>
      simp [hb, Prod.ext_iff]

/-- C9.  `CWOPThread.send_packet` equals its specification: it walks the
server-major, count-minor attempt plan in order, keeps every failing attempt,
stops right after the first successful `connect + send login + send packet`
exchange (performing no further attempts), and returns cleanly iff such a
success exists; consequently it raises `FailedPost` (flag `false`) if and only
if every one of the `max_tries` attempts against every server in
`server_list` fails with a connect or send fault. -/
theorem cwop_send_packet_spec {S : Type} (oc : S → Nat → CWOPThread.SendOutcome)
    (max_tries : Nat) (servers : List S) :
    CWOPThread.send_packet oc max_tries servers =
      CWOPThread.send_packet_spec oc max_tries servers ∧
    ((CWOPThread.send_packet oc max_tries servers).2 = false ↔
      ∀ s ∈ servers, ∀ c, c < max_tries → oc s c ≠ .success) := by
  have h := send_packet_eq_scan1 oc max_tries servers
  have hspec : CWOPThread.send_packet oc max_tries servers =
      CWOPThread.send_packet_spec oc max_tries servers := by
    rw [h, scan1_spec]; rfl
  refine ⟨hspec, ?_⟩
  rw [hspec]
  simp only [CWOPThread.send_packet_spec]
  rw [Bool.not_eq_false', List.isEmpty_iff, List.dropWhile_eq_nil_iff]
  constructor
  · intro hall s hs c hc
    have := hall (s, c) (by
      simp only [CWOPThread.attemptPlan, List.mem_flatMap, List.mem_map,
        List.mem_range]
      exact ⟨s, hs, c, hc, rfl⟩)
    simpa [CWOPThread.isFail] using this
  · intro hall p hp
    simp only [CWOPThread.attemptPlan, List.mem_flatMap, List.mem_map,
      List.mem_range] at hp
    obtain ⟨s, hs, c, hc, rfl⟩ := hp
    simpa [CWOPThread.isFail] using hall s hs c hc

/-- Backlog branch of the worker loop: with more than `max_backlog` items
still queued behind the one just dequeued, the item is abandoned and the inner
loop goes around. -/
theorem run_loop_discard_step {R : Type} {max_backlog : Nat}
    {stale post_interval : Option Int} {now : Int} {proc : R → Option PyExc}
    {timeOf : R → Int} {lastpost : Int} {r : R} {rest : List (Option R)}
    (h : rest.length > max_backlog) :
    run_loop max_backlog stale post_interval now proc timeOf lastpost
        (some r :: rest) =
      { run_loop max_backlog stale post_interval now proc timeOf lastpost rest with
        discarded := r :: (run_loop max_backlog stale post_interval now proc
          timeOf lastpost rest).discarded } := by
  simp [run_loop, h]

/-- Gate-skip branch of the worker loop. -/
theorem run_loop_skip_step {R : Type} {max_backlog : Nat}
    {stale post_interval : Option Int} {now : Int} {proc : R → Option PyExc}
    {timeOf : R → Int} {lastpost : Int} {r : R} {rest : List (Option R)}
    (hlen : ¬ rest.length > max_backlog)
    (hsk : (skip_this_post stale post_interval lastpost now (timeOf r)).1 = true) :
    run_loop max_backlog stale post_interval now proc timeOf lastpost
        (some r :: rest) =
      (let g := skip_this_post stale post_interval lastpost now (timeOf r)
       let t := run_loop max_backlog stale post_interval now proc timeOf g.2 rest
       { t with skipped := r :: t.skipped, lastposts := g.2 :: t.lastposts }) := by
  simp only [run_loop, if_neg hlen, hsk, if_true]

/-- Processing branch, `process_record` returns or raises a per-record fault
(`none`, `FailedPost` or `BadLogin`): the loop records the outcome (sleeping
3600 s on `BadLogin`) and continues with the rest of the queue. -/
theorem run_loop_proc_step {R : Type} {max_backlog : Nat}
    {stale post_interval : Option Int} {now : Int} {proc : R → Option PyExc}
    {timeOf : R → Int} {lastpost : Int} {r : R} {rest : List (Option R)}
    (hlen : ¬ rest.length > max_backlog)
    (hsk : (skip_this_post stale post_interval lastpost now (timeOf r)).1 = false)
    (out : Option PyExc) (hout : proc r = out) (hnf : nonFatal out) :
    run_loop max_backlog stale post_interval now proc timeOf lastpost
        (some r :: rest) =
      (let g := skip_this_post stale post_interval lastpost now (timeOf r)
       let t := run_loop max_backlog stale post_interval now proc timeOf g.2 rest
       { t with processed := (r, out) :: t.processed,
                lastposts := g.2 :: t.lastposts,
                sleeps := (if out = some .badLogin then 3600 else 0) + t.sleeps }) := by
  subst hout
  rcases hp : proc r with _ | e
  · simp only [run_loop, if_neg hlen, hsk, Bool.false_eq_true, if_false, hp]
    simp
  · cases e <;> simp_all [run_loop, if_neg hlen, hsk, nonFatal]

/-- Fatal branch: any exception other than `FailedPost`/`BadLogin` escaping
`process_record` makes `run_loop` return immediately. -/
theorem run_loop_fatal_step {R : Type} {max_backlog : Nat}
    {stale post_interval : Option Int} {now : Int} {proc : R → Option PyExc}
    {timeOf : R → Int} {lastpost : Int} {r : R} {rest : List (Option R)}
    (hlen : ¬ rest.length > max_backlog)
    (hsk : (skip_this_post stale post_interval lastpost now (timeOf r)).1 = false)
    (e : PyExc) (hout : proc r = some e) (h1 : e ≠ .badLogin) (h2 : e ≠ .failedPost) :
    run_loop max_backlog stale post_interval now proc timeOf lastpost
        (some r :: rest) =
      ⟨[], [], [(r, some e)],
       [(skip_this_post stale post_interval lastpost now (timeOf r)).2], 0, .fatal⟩ := by
  cases e <;>
    first
    | exact absurd rfl h1
    | exact absurd rfl h2
    | simp only [run_loop, if_neg hlen, hsk, Bool.false_eq_true, if_false, hout]

/-- Once at most `max_backlog + 1` records remain in the queue, the worker
never discards again, and every record it processes comes from the queue. -/
theorem run_loop_no_discard {R : Type} (max_backlog : Nat)
    (stale post_interval : Option Int) (now : Int) (proc : R → Option PyExc)
    (timeOf : R → Int) :
    ∀ (xs : List R) (lastpost : Int), xs.length ≤ max_backlog + 1 →
      (run_loop max_backlog stale post_interval now proc timeOf lastpost
        (xs.map some)).discarded = [] ∧
      ∀ p ∈ (run_loop max_backlog stale post_interval now proc timeOf lastpost
        (xs.map some)).processed, p.1 ∈ xs := by
  intro xs
  induction xs with
  | nil =>
    intro lastpost _
    exact ⟨rfl, by intro p hp; simp [run_loop] at hp⟩
  | cons x xs ih =>
    intro lastpost hlen
    have hle : ¬ (xs.map some).length > max_backlog := by
      simp only [List.length_map]
      simp only [List.length_cons] at hlen
      omega
    have hxs : xs.length ≤ max_backlog + 1 := by
      simp only [List.length_cons] at hlen; omega
    rcases hsk : (skip_this_post stale post_interval lastpost now (timeOf x)).1 with _ | _
    · -- gate accepts: the record is processed one way or another
      rcases hp : proc x with _ | e
      · rw [List.map_cons,
          run_loop_proc_step hle hsk none hp (by simp [nonFatal])]
        refine ⟨(ih _ hxs).1, ?_⟩
        intro p hp'
        simp only [List.mem_cons] at hp' ⊢
        rcases hp' with hp' | hp'
        · exact Or.inl (by rw [hp'])
        · exact Or.inr ((ih _ hxs).2 p hp')
      · by_cases hnf : nonFatal (some e)
        · rw [List.map_cons, run_loop_proc_step hle hsk (some e) hp hnf]
          refine ⟨(ih _ hxs).1, ?_⟩
          intro p hp'
          simp only [List.mem_cons] at hp' ⊢
          rcases hp' with hp' | hp'
          · exact Or.inl (by rw [hp'])
          · exact Or.inr ((ih _ hxs).2 p hp')
        · have h1 : e ≠ .badLogin := fun h => by simp [h, nonFatal] at hnf
          have h2 : e ≠ .failedPost := fun h => by simp [h, nonFatal] at hnf
          rw [List.map_cons, run_loop_fatal_step hle hsk e hp h1 h2]
          exact ⟨rfl, by intro p hp'; simp at hp'; subst hp'; simp⟩
    · -- gate skips
      rw [List.map_cons, run_loop_skip_step hle hsk]
      refine ⟨(ih _ hxs).1, ?_⟩
      intro p hp'
      exact List.mem_cons_of_mem x ((ih _ hxs).2 p hp')

/-- C1 (counterexample).  `max_backlog = 0` and `D = 5` records queued at
dequeue time: the worker discards 4 records — not `D - B = 5` — and processes
the fifth. -/
theorem run_loop_backlog_trim_cex :
    (run_loop 0 none none 0 (fun _ => none) (fun n : Nat => (n : Int)) 0
      ([0, 1, 2, 3, 4].map some)).discarded = [0, 1, 2, 3] ∧
    (run_loop 0 none none 0 (fun _ => none) (fun n : Nat => (n : Int)) 0
      ([0, 1, 2, 3, 4].map some)).processed = [(4, none)] ∧
    ([0, 1, 2, 3, 4] : List Nat).length = 5 ∧ (4 : Nat) ≠ 5 - 0 := by
  refine ⟨by decide, by decide, by decide, by decide⟩

/-- C1 (amended).  With `D` records present at dequeue time and
`max_backlog = B < D`, the worker discards exactly the `D - B - 1` oldest
records before keeping one to process — the check `queue.qsize() <=
max_backlog` counts the queue *behind* the dequeued item, so the item that
stops the trim is the `(D-B)`-th oldest — and every record passed to
`process_record` in the whole run comes from the `D - B - 1` suffix survivors:
no discarded record ever reaches `process_record`. -/
theorem run_loop_backlog_trim {R : Type} (max_backlog : Nat)
    (stale post_interval : Option Int) (now : Int) (proc : R → Option PyExc)
    (timeOf : R → Int) :
    ∀ (rs : List R) (lastpost : Int), rs.length > max_backlog →
      (run_loop max_backlog stale post_interval now proc timeOf lastpost
        (rs.map some)).discarded =
          rs.take (rs.length - max_backlog - 1) ∧
      ∀ p ∈ (run_loop max_backlog stale post_interval now proc timeOf lastpost
        (rs.map some)).processed,
          p.1 ∈ rs.drop (rs.length - max_backlog - 1) := by
  intro rs
  induction rs with
  | nil => intro lastpost hD; simp at hD
  | cons r rs ih =>
    intro lastpost hD
    by_cases h : rs.length > max_backlog
    · have hlm : (rs.map some).length > max_backlog := by
        simpa [List.length_map] using h
      rw [List.map_cons, run_loop_discard_step hlm]
      obtain ⟨hd, hp⟩ := ih lastpost h
      have hidx : (r :: rs).length - max_backlog - 1 =
          (rs.length - max_backlog - 1) + 1 := by
        simp only [List.length_cons]; omega
      rw [hidx]
      refine ⟨?_, ?_⟩
      · rw [List.take_succ_cons, hd]
      · intro p hp'
        rw [List.drop_succ_cons]
        exact hp p hp'
    · have hlen : (r :: rs).length ≤ max_backlog + 1 := by
        simp only [List.length_cons]; omega
      have h0 : (r :: rs).length - max_backlog - 1 = 0 := by
        simp only [List.length_cons]; omega
      rw [h0, List.take_zero, List.drop_zero]
      exact run_loop_no_discard max_backlog stale post_interval now proc timeOf
        (r :: rs) lastpost hlen

/-- C1 (witness): three records, `max_backlog = 1`: exactly one (= `3 - 1 - 1`)
record is discarded, and it is the oldest. -/
theorem run_loop_backlog_trim_witness :
    ([10, 20, 30] : List Int).length > 1 ∧
    (run_loop 1 none none 0 (fun _ => none) (fun n : Int => n) 0
      ([10, 20, 30].map some)).discarded = [10] := by
  refine ⟨by decide, ?_⟩
  have h := (run_loop_backlog_trim 1 none none 0 (fun _ => none)
    (fun n : Int => n) [10, 20, 30] 0 (by decide)).1
  simpa using h

/-- C3.  Exception policy of the worker loop, for a record that passes the
gate: `FailedPost` is caught and the loop continues with the rest of the
queue; `BadLogin` is caught, the worker sleeps 3600 seconds, and the loop
continues; any other exception out of `process_record` — including the
unit-mismatch `ValueError` raised by enrichment — makes `run_loop` return,
ending the worker with nothing further consumed. -/
theorem run_loop_fault_policy {R : Type} (max_backlog : Nat)
    (stale post_interval : Option Int) (now : Int) (proc : R → Option PyExc)
    (timeOf : R → Int) (lastpost : Int) (r : R) (rest : List (Option R))
    (hlen : rest.length ≤ max_backlog)
    (hacc : (skip_this_post stale post_interval lastpost now (timeOf r)).1 = false) :
    (proc r = some .failedPost →
      run_loop max_backlog stale post_interval now proc timeOf lastpost
          (some r :: rest) =
        (let g := skip_this_post stale post_interval lastpost now (timeOf r)
         let t := run_loop max_backlog stale post_interval now proc timeOf g.2 rest
         { t with processed := (r, some .failedPost) :: t.processed,
                  lastposts := g.2 :: t.lastposts })) ∧
    (proc r = some .badLogin →
      run_loop max_backlog stale post_interval now proc timeOf lastpost
          (some r :: rest) =
        (let g := skip_this_post stale post_interval lastpost now (timeOf r)
         let t := run_loop max_backlog stale post_interval now proc timeOf g.2 rest
         { t with processed := (r, some .badLogin) :: t.processed,
                  lastposts := g.2 :: t.lastposts,
                  sleeps := 3600 + t.sleeps })) ∧
    (∀ e, proc r = some e → e ≠ .failedPost → e ≠ .badLogin →
      run_loop max_backlog stale post_interval now proc timeOf lastpost
          (some r :: rest) =
        ⟨[], [], [(r, some e)],
         [(skip_this_post stale post_interval lastpost now (timeOf r)).2],
         0, .fatal⟩) := by
  have hlen' : ¬ rest.length > max_backlog := by omega
  refine ⟨?_, ?_, ?_⟩
  · intro h
    rw [run_loop_proc_step hlen' hacc (some .failedPost) h (by simp [nonFatal])]
    simp
  · intro h
    rw [run_loop_proc_step hlen' hacc (some .badLogin) h (by simp [nonFatal])]
    simp
  · intro e h h1 h2
    exact run_loop_fatal_step hlen' hacc e h h2 h1

/-- C3 (witness): an accepted record whose `process_record` raises the
unit-mismatch `ValueError` terminates the worker at once. -/
theorem run_loop_fault_policy_witness :
    run_loop 5 none none 0 (fun _ => some PyExc.valueError) (fun n : Int => n) 0
      [some 7] =
      ⟨[], [], [(7, some PyExc.valueError)], [7], 0, .fatal⟩ := by
  have h := (run_loop_fault_policy 5 none none 0 (fun _ => some PyExc.valueError)
    (fun n : Int => n) 0 7 [] (by decide) (by decide)).2.2
    PyExc.valueError rfl (by decide) (by decide)
  simpa using h

/-- C6 (counterexample).  With `stale` and `post_interval` both unset, two
in-order queue records timestamped 1000 then 500 are both accepted (neither is
skipped), and the second accepted update *decreases* `self.lastpost` from 1000
to 500: the value is not monotonically non-decreasing across accepted
records. -/
theorem lastpost_monotone_cex :
    gateSequence none none 0 [(0, 1000), (0, 500)] = [1000, 500] ∧
    (skip_this_post none none 0 0 1000).1 = false ∧
    (skip_this_post none none 1000 0 500).1 = false ∧
    ¬ ((1000 : Int) ≤ 500) := by
  refine ⟨by decide, by decide, by decide, by decide⟩

/-- C6 (amended).  `self.lastpost` is written only by the gate: a call to
`skip_this_post` leaves it unchanged when it skips and sets it to the record's
timestamp when it accepts; the whole evolution of `lastpost` along a worker
run is identical whichever per-record outcomes (`success`, `FailedPost`,
`BadLogin`) `process_record` produces — failed posts never change it; and
whenever `post_interval` is set to a non-negative value the sequence of
`lastpost` values is monotonically non-decreasing.  (With `post_interval`
unset, an accepted out-of-order record may decrease it.) -/
theorem lastpost_update_policy :
    (∀ (stale post_interval : Option Int) (lastpost now time_ts : Int),
      (skip_this_post stale post_interval lastpost now time_ts).2 =
        if (skip_this_post stale post_interval lastpost now time_ts).1 then
          lastpost
        else time_ts) ∧
    (∀ (stale : Option Int) (p : Int), 0 ≤ p →
      ∀ (evs : List (Int × Int)) (lastpost : Int),
        List.Chain (fun a b : Int => a ≤ b) lastpost
          (gateSequence stale (some p) lastpost evs)) ∧
    (∀ (R : Type) (max_backlog : Nat) (stale post_interval : Option Int)
        (now : Int) (timeOf : R → Int) (proc proc' : R → Option PyExc),
      (∀ r, nonFatal (proc r)) → (∀ r, nonFatal (proc' r)) →
      ∀ (q : List (Option R)) (lastpost : Int),
        (run_loop max_backlog stale post_interval now proc timeOf
          lastpost q).lastposts =
        (run_loop max_backlog stale post_interval now proc' timeOf
          lastpost q).lastposts) := by
  refine ⟨?_, ?_, ?_⟩
  · intro stale post_interval lastpost now time_ts
    by_cases h1 : staleCheck stale now time_ts = true <;>
      by_cases h2 : intervalCheck post_interval lastpost time_ts = true <;>
        simp [skip_this_post, h1, h2]
  · intro stale p hp evs
    induction evs with
    | nil => intro lastpost; exact List.Chain.nil
    | cons ev evs ih =>
      intro lastpost
      obtain ⟨now, time_ts⟩ := ev
      simp only [gateSequence]
      refine List.Chain.cons ?_ (ih _)
      by_cases h1 : staleCheck stale now time_ts = true
      · simp [skip_this_post, h1]
      · by_cases h2 : intervalCheck (some p) lastpost time_ts = true
        · simp [skip_this_post, h1, h2]
        · have : ¬ (time_ts - lastpost < p) := by
            simpa [intervalCheck] using h2
          simp only [skip_this_post, h1, Bool.false_eq_true, if_false, h2]
          omega
  · intro R max_backlog stale post_interval now timeOf proc proc' hf hf' q
    induction q with
    | nil => intro lastpost; rfl
    | cons item q ih =>
      intro lastpost
      cases item with
      | none => rfl
      | some r =>
        by_cases hlen : q.length > max_backlog
        · rw [run_loop_discard_step hlen, run_loop_discard_step hlen]
          exact ih lastpost
        · rcases hsk : (skip_this_post stale post_interval lastpost now
              (timeOf r)).1 with _ | _
          · rw [run_loop_proc_step hlen hsk (proc r) rfl (hf r),
              run_loop_proc_step hlen hsk (proc' r) rfl (hf' r)]
            simpa using ih _
          · rw [run_loop_skip_step hlen hsk, run_loop_skip_step hlen hsk]
            simpa using ih _

/-- C6 (witness): a non-decreasing gate run under `post_interval = 300`, and a
worker whose posts all fail tracing the same `lastpost` evolution as one whose
posts all succeed. -/
theorem lastpost_update_policy_witness :
    (skip_this_post none (some 300) 0 0 400).2 =
      (if (skip_this_post none (some 300) 0 0 400).1 then (0 : Int) else 400) ∧
    List.Chain (fun a b : Int => a ≤ b) 0
      (gateSequence none (some 300) 0 [(0, 400), (0, 800)]) ∧
    (run_loop 3 none none 0 (fun _ => some PyExc.failedPost)
      (fun n : Int => n) 0 [some 5, some 9]).lastposts =
    (run_loop 3 none none 0 (fun _ => none)
      (fun n : Int => n) 0 [some 5, some 9]).lastposts := by
  refine ⟨lastpost_update_policy.1 none (some 300) 0 0 400,
    lastpost_update_policy.2.1 none 300 (by decide) [(0, 400), (0, 800)] 0,
    lastpost_update_policy.2.2 Int 3 none none 0 (fun n : Int => n)
      (fun _ => some PyExc.failedPost) (fun _ => none)
      (fun _ => trivial) (fun _ => trivial) [some 5, some 9] 0⟩

/-- The emitted per-type parameter keys are a sublist of all mapped parameter
keys. -/
theorem filterMap_param_sublist (record : String → Option (Option Int))
    (l : List (String × String)) :
    (l.filterMap fun p =>
        if AmbientThread.cellPresent (record p.1) then some p.2 else none).Sublist
      (l.map Prod.snd) := by
  induction l with
  | nil => simp
  | cons a l ih =>
    by_cases h : AmbientThread.cellPresent (record a.1) = true
    · simpa [List.filterMap_cons, h] using ih.cons₂ a.2
    · simp only [List.filterMap_cons, h, Bool.false_eq_true, if_false,
        List.map_cons]
      exact ih.cons a.2

/-- C8.  The query string built by `AmbientThread.format_url` has no duplicate
parameter keys; and for each supported observation type, its parameter key
appears (then exactly once, by nodup) iff the record holds a non-`None` value
for it — a record field that is absent or `None` is simply omitted, never
defaulted.  Consequently, on a record with all mapped fields present and
non-null every mapped parameter key appears exactly once. -/
theorem ambient_format_url_keys (record : String → Option (Option Int)) :
    (AmbientThread.format_url_keys record).Nodup ∧
    ∀ p ∈ AmbientThread.formats,
      ((p.2 ∈ AmbientThread.format_url_keys record) ↔
        AmbientThread.cellPresent (record p.1) = true) ∧
      (AmbientThread.format_url_keys record).count p.2 =
        (if AmbientThread.cellPresent (record p.1) then 1 else 0) := by
  have hfull : ("action" :: "ID" :: "PASSWORD" :: "softwaretype" ::
      AmbientThread.formats.map Prod.snd).Nodup := by decide
  have hsub : (AmbientThread.format_url_keys record).Sublist
      ("action" :: "ID" :: "PASSWORD" :: "softwaretype" ::
        AmbientThread.formats.map Prod.snd) := by
    simp only [AmbientThread.format_url_keys]
    exact ((filterMap_param_sublist record AmbientThread.formats).cons₂
      _).cons₂ _ |>.cons₂ _ |>.cons₂ _
  have hnd : (AmbientThread.format_url_keys record).Nodup := hfull.sublist hsub
  refine ⟨hnd, ?_⟩
  intro p hp
  have hbase : ∀ q ∈ AmbientThread.formats,
      q.2 ∉ (["action", "ID", "PASSWORD", "softwaretype"] : List String) := by
    decide
  have hmapnd : (AmbientThread.formats.map Prod.snd).Nodup := by decide
  have hmem : (p.2 ∈ AmbientThread.format_url_keys record) ↔
      AmbientThread.cellPresent (record p.1) = true := by
    constructor
    · intro h
      simp only [AmbientThread.format_url_keys, List.mem_cons,
        List.mem_filterMap] at h
      rcases h with h | h | h | h | ⟨q, hq, hqe⟩
      · exact absurd (by simp [h]) (hbase p hp)
      · exact absurd (by simp [h]) (hbase p hp)
      · exact absurd (by simp [h]) (hbase p hp)
      · exact absurd (by simp [h]) (hbase p hp)
      · by_cases hc : AmbientThread.cellPresent (record q.1) = true
        · rw [if_pos hc, Option.some_inj] at hqe
          have : q = p := List.inj_on_of_nodup_map hmapnd hq hp hqe
          rwa [← this]
        · rw [if_neg hc] at hqe
          exact absurd hqe (by simp)
    · intro h
      simp only [AmbientThread.format_url_keys, List.mem_cons,
        List.mem_filterMap]
      exact Or.inr (Or.inr (Or.inr (Or.inr ⟨p, hp, by rw [if_pos h]⟩)))
  refine ⟨hmem, ?_⟩
  by_cases hc : AmbientThread.cellPresent (record p.1) = true
  · rw [if_pos hc]
    exact List.count_eq_one_of_mem hnd (hmem.mpr hc)
  · rw [if_neg hc]
    rw [List.count_eq_zero]
    exact fun h => hc (hmem.mp h)

/-- C8 (witness): with every field set, `tempf` is emitted; with every field
missing, it is counted zero times. -/
theorem ambient_format_url_keys_witness :
    ("tempf" ∈ AmbientThread.format_url_keys (fun _ => some (some 1))) ∧
    (AmbientThread.format_url_keys (fun _ => none)).count "tempf" = 0 := by
  have h1 := (ambient_format_url_keys (fun _ => some (some 1))).2
    ("outTemp", "tempf") (by decide)
  have h2 := (ambient_format_url_keys (fun _ => none)).2
    ("outTemp", "tempf") (by decide)
  exact ⟨h1.1.mpr (by decide), by simpa [AmbientThread.cellPresent] using h2.2⟩

/-- Looking up the key just set. -/
theorem Rec.fields_setField_self (r : Rec) (k : String) (v : Option (Option Int)) :
    (r.setField k v).fields k = v := by
  simp [Rec.setField]

/-- Looking up a different key. -/
theorem Rec.fields_setField_ne (r : Rec) {k k' : String} (h : k' ≠ k)
    (v : Option (Option Int)) :
    (r.setField k v).fields k' = r.fields k' := by
  simp [Rec.setField, h]

/-- `setField` does not touch the timestamp. -/
theorem Rec.setField_dateTime (r : Rec) (k : String) (v : Option (Option Int)) :
    (r.setField k v).dateTime = r.dateTime := rfl

/-- With the aggregate row available, `enrich1` never abandons and agrees with
`enrichOne`. -/
theorem enrich1_ok (usUnits : Int) (cur : Option (Option Int))
    (agg : Option Int × Option Int × Option Int) :
    RESTThread.enrich1 usUnits cur (.ok (some agg)) =
      (RESTThread.enrichOne usUnits cur agg).map (fun v => (v, true)) := by
  obtain ⟨s, u1, u2⟩ := agg
  rcases cur with _ | v
  · rcases s with _ | sv
    · rfl
    · simp only [RESTThread.enrich1, RESTThread.enrichOne]
      by_cases h : (u1 == u2 && u2 == some usUnits) = true <;>
        simp [h, Except.map]
  · rfl

/-- A successful `enrichOne` keeps a present cell and otherwise stores the
aggregate sum. -/
theorem enrichOne_ok_val {usUnits : Int} {cur : Option (Option Int)}
    {agg : Option Int × Option Int × Option Int} {v : Option (Option Int)}
    (h : RESTThread.enrichOne usUnits cur agg = .ok v) :
    v = if cur = none then some agg.1 else cur := by
  rcases cur with _ | w
  · rcases hs : agg.1 with _ | sv <;>
      simp only [RESTThread.enrichOne, hs] at h
    · simp only [if_pos rfl, hs]
      exact (Except.ok.injEq _ _ ▸ h).symm
    · by_cases hu : (agg.2.1 == agg.2.2 && agg.2.2 == some usUnits) = true
      · rw [if_pos hu] at h
        simp only [if_pos rfl, hs]
        exact (Except.ok.injEq _ _ ▸ h).symm
      · rw [if_neg hu] at h
        exact absurd h (by simp)
  · simp only [RESTThread.enrichOne] at h
    simpa using h.symm

/-- The unit-mismatch fault of one block: key absent, non-NULL sum, failed
unit check. -/
theorem enrichOne_err {usUnits : Int} {agg : Option Int × Option Int × Option Int}
    (hs : agg.1 ≠ none)
    (hu : (agg.2.1 == agg.2.2 && agg.2.2 == some usUnits) = false) :
    RESTThread.enrichOne usUnits none agg = .error .valueError := by
  rcases hsv : agg.1 with _ | sv
  · exact absurd hsv hs
  · simp [RESTThread.enrichOne, hsv, hu]

/-- A clean block succeeds. -/
theorem enrichOne_clean {usUnits : Int} {cur : Option (Option Int)}
    {agg : Option Int × Option Int × Option Int}
    (h : RESTThread.stepClean usUnits cur agg) :
    ∃ v, RESTThread.enrichOne usUnits cur agg = .ok v := by
  rcases cur with _ | w
  · rcases h with h | h | h
    · exact absurd rfl h
    · exact ⟨some none, by simp [RESTThread.enrichOne, h]⟩
    · rcases hs : agg.1 with _ | sv
      · exact ⟨some none, by simp [RESTThread.enrichOne, hs]⟩
      · exact ⟨some (some sv), by simp [RESTThread.enrichOne, hs, h]⟩
  · exact ⟨some w, rfl⟩

/-- With the `rain` column present, `get_record` is the three `enrichOne`
blocks chained in order (hourRain, rain24, dayRain), each over its own query
window, writing onto a copy of the record. -/
theorem get_record_eq (sod : Int → Int) (ar : Archive) (rec : Rec)
    (hR : ar.hasRain = true) :
    RESTThread.get_record sod ar rec =
      (match RESTThread.enrichOne rec.usUnits (rec.fields "hourRain")
          (rainAgg ar false (rec.dateTime - 3600) rec.dateTime) with
       | .error e => .error e
       | .ok v1 =>
         match RESTThread.enrichOne rec.usUnits (rec.fields "rain24")
             (rainAgg ar false (rec.dateTime - 24 * 3600) rec.dateTime) with
         | .error e => .error e
         | .ok v2 =>
           match RESTThread.enrichOne rec.usUnits (rec.fields "dayRain")
               (rainAgg ar true (sod rec.dateTime) rec.dateTime) with
           | .error e => .error e
           | .ok v3 =>
             .ok (((rec.setField "hourRain" v1).setField "rain24"
               v2).setField "dayRain" v3)) := by
  have n24h : ("rain24" : String) ≠ "hourRain" := by decide
  have ndh : ("dayRain" : String) ≠ "hourRain" := by decide
  have nd24 : ("dayRain" : String) ≠ "rain24" := by decide
  simp only [RESTThread.get_record, Archive.rainSumSql, hR, if_true]
  rw [enrich1_ok]
  rcases h1 : RESTThread.enrichOne rec.usUnits (rec.fields "hourRain")
      (rainAgg ar false (rec.dateTime - 3600) rec.dateTime) with e1 | v1
  · simp [Except.map]
  · simp only [Except.map]
    rw [Rec.fields_setField_ne _ n24h, enrich1_ok]
    rcases h2 : RESTThread.enrichOne rec.usUnits (rec.fields "rain24")
        (rainAgg ar false (rec.dateTime - 24 * 3600) rec.dateTime) with e2 | v2
    · simp [Except.map]
    · simp only [Except.map]
      rw [Rec.fields_setField_ne _ nd24, Rec.fields_setField_ne _ ndh,
        enrich1_ok]
      rcases h3 : RESTThread.enrichOne rec.usUnits (rec.fields "dayRain")
          (rainAgg ar true (sod rec.dateTime) rec.dateTime) with e3 | v3
      · simp [Except.map]
      · simp [Except.map]

/-- C7 (counterexample).  Two rows inside the 1-hour window carry unit systems
1 and 2 (`MIN(usUnits) = 1 ≠ 2 = MAX(usUnits)`, the record's system is 1) but
both `rain` cells are NULL, so the sum is NULL: the claim says this mismatch
raises a fault, yet `get_record` succeeds and quietly stores `None` for
`hourRain` — the unit check is skipped whenever `_result[0] is None`. -/
theorem get_record_units_cex :
    sqlMin ((windowRows ⟨true, false, [⟨10, 1, none, none⟩, ⟨20, 2, none, none⟩]⟩
      false (20 - 3600) 20).map (fun row => row.usUnits)) = some 1 ∧
    sqlMax ((windowRows ⟨true, false, [⟨10, 1, none, none⟩, ⟨20, 2, none, none⟩]⟩
      false (20 - 3600) 20).map (fun row => row.usUnits)) = some 2 ∧
    okField "hourRain"
      (RESTThread.get_record (fun _ => 0)
        ⟨true, false, [⟨10, 1, none, none⟩, ⟨20, 2, none, none⟩]⟩
        ⟨20, 1, fun _ => none⟩) = some (some none) := by
  refine ⟨by decide, by decide, by decide⟩

/-- C7 (amended).  With the `rain` column present: for each of `hourRain`
(window `t-3600 < dateTime ≤ t`), `rain24` (window `t-86400 < dateTime ≤ t`)
and `dayRain` (window `startOfDay t ≤ dateTime ≤ t`), a field absent from the
input record is set to the archive's rain sum over its window — in particular
to the explicit unknown `None`, not zero, when no row matches — and a field
already present is left untouched; the unit-mismatch `ValueError` is raised
exactly when the field is absent, the window's rain sum is **non-NULL**, and
`MIN(usUnits)`/`MAX(usUnits)` are not both the record's unit system (amended:
with an all-NULL or empty window the unit check is skipped, so a mismatch
among rows whose rain cells are all NULL does not fault). -/
theorem get_record_enrichment (sod : Int → Int) (ar : Archive) (rec : Rec)
    (hR : ar.hasRain = true) :
    (∀ r', RESTThread.get_record sod ar rec = .ok r' →
      (rec.fields "hourRain" = none →
        r'.fields "hourRain" =
          some (rainAgg ar false (rec.dateTime - 3600) rec.dateTime).1) ∧
      (rec.fields "hourRain" ≠ none →
        r'.fields "hourRain" = rec.fields "hourRain") ∧
      (rec.fields "rain24" = none →
        r'.fields "rain24" =
          some (rainAgg ar false (rec.dateTime - 24 * 3600) rec.dateTime).1) ∧
      (rec.fields "rain24" ≠ none →
        r'.fields "rain24" = rec.fields "rain24") ∧
      (rec.fields "dayRain" = none →
        r'.fields "dayRain" =
          some (rainAgg ar true (sod rec.dateTime) rec.dateTime).1) ∧
      (rec.fields "dayRain" ≠ none →
        r'.fields "dayRain" = rec.fields "dayRain") ∧
      (rec.fields "hourRain" = none →
        windowRows ar false (rec.dateTime - 3600) rec.dateTime = [] →
        r'.fields "hourRain" = some none)) ∧
    ((rec.fields "hourRain" = none →
      (rainAgg ar false (rec.dateTime - 3600) rec.dateTime).1 ≠ none →
      ((rainAgg ar false (rec.dateTime - 3600) rec.dateTime).2.1 ==
          (rainAgg ar false (rec.dateTime - 3600) rec.dateTime).2.2 &&
        (rainAgg ar false (rec.dateTime - 3600) rec.dateTime).2.2 ==
          some rec.usUnits) = false →
      RESTThread.get_record sod ar rec = .error .valueError) ∧
     (RESTThread.stepClean rec.usUnits (rec.fields "hourRain")
        (rainAgg ar false (rec.dateTime - 3600) rec.dateTime) →
      rec.fields "rain24" = none →
      (rainAgg ar false (rec.dateTime - 24 * 3600) rec.dateTime).1 ≠ none →
      ((rainAgg ar false (rec.dateTime - 24 * 3600) rec.dateTime).2.1 ==
          (rainAgg ar false (rec.dateTime - 24 * 3600) rec.dateTime).2.2 &&
        (rainAgg ar false (rec.dateTime - 24 * 3600) rec.dateTime).2.2 ==
          some rec.usUnits) = false →
      RESTThread.get_record sod ar rec = .error .valueError) ∧
     (RESTThread.stepClean rec.usUnits (rec.fields "hourRain")
        (rainAgg ar false (rec.dateTime - 3600) rec.dateTime) →
      RESTThread.stepClean rec.usUnits (rec.fields "rain24")
        (rainAgg ar false (rec.dateTime - 24 * 3600) rec.dateTime) →
      rec.fields "dayRain" = none →
      (rainAgg ar true (sod rec.dateTime) rec.dateTime).1 ≠ none →
      ((rainAgg ar true (sod rec.dateTime) rec.dateTime).2.1 ==
          (rainAgg ar true (sod rec.dateTime) rec.dateTime).2.2 &&
        (rainAgg ar true (sod rec.dateTime) rec.dateTime).2.2 ==
          some rec.usUnits) = false →
      RESTThread.get_record sod ar rec = .error .valueError)) := by
  have nh24 : ("hourRain" : String) ≠ "rain24" := by decide
  have nhd : ("hourRain" : String) ≠ "dayRain" := by decide
  have n24d : ("rain24" : String) ≠ "dayRain" := by decide
  have hEq := get_record_eq sod ar rec hR
  constructor
  · intro r' hok
    rw [hEq] at hok
    rcases h1 : RESTThread.enrichOne rec.usUnits (rec.fields "hourRain")
        (rainAgg ar false (rec.dateTime - 3600) rec.dateTime) with e1 | v1 <;>
      rw [h1] at hok
    · simp at hok
    rcases h2 : RESTThread.enrichOne rec.usUnits (rec.fields "rain24")
        (rainAgg ar false (rec.dateTime - 24 * 3600) rec.dateTime) with e2 | v2 <;>
      rw [h2] at hok
    · simp at hok
    rcases h3 : RESTThread.enrichOne rec.usUnits (rec.fields "dayRain")
        (rainAgg ar true (sod rec.dateTime) rec.dateTime) with e3 | v3 <;>
      rw [h3] at hok
    · simp at hok
    simp only [Except.ok.injEq] at hok
    subst hok
    have lh : (((rec.setField "hourRain" v1).setField "rain24" v2).setField
        "dayRain" v3).fields "hourRain" = v1 := by
      rw [Rec.fields_setField_ne _ nhd, Rec.fields_setField_ne _ nh24,
        Rec.fields_setField_self]
    have l24 : (((rec.setField "hourRain" v1).setField "rain24" v2).setField
        "dayRain" v3).fields "rain24" = v2 := by
      rw [Rec.fields_setField_ne _ n24d, Rec.fields_setField_self]
    have ld : (((rec.setField "hourRain" v1).setField "rain24" v2).setField
        "dayRain" v3).fields "dayRain" = v3 := Rec.fields_setField_self _ _ _
    have hv1 := enrichOne_ok_val h1
    have hv2 := enrichOne_ok_val h2
    have hv3 := enrichOne_ok_val h3
    refine ⟨?_, ?_, ?_, ?_, ?_, ?_, ?_⟩
    · intro habs; rw [lh, hv1, if_pos habs]
    · intro hpres; rw [lh, hv1, if_neg hpres]
    · intro habs; rw [l24, hv2, if_pos habs]
    · intro hpres; rw [l24, hv2, if_neg hpres]
    · intro habs; rw [ld, hv3, if_pos habs]
    · intro hpres; rw [ld, hv3, if_neg hpres]
    · intro habs hw
      have hsum : (rainAgg ar false (rec.dateTime - 3600) rec.dateTime).1 =
          none := by
        simp [rainAgg, hw, sqlSum]
      rw [lh, hv1, if_pos habs, hsum]
  · refine ⟨?_, ?_, ?_⟩
    · intro habs hs hu
      rw [hEq, habs, enrichOne_err hs hu]
    · intro hc1 habs hs hu
      obtain ⟨v1, hv1⟩ := enrichOne_clean hc1
      rw [hEq, hv1, habs, enrichOne_err hs hu]
    · intro hc1 hc2 habs hs hu
      obtain ⟨v1, hv1⟩ := enrichOne_clean hc1
      obtain ⟨v2, hv2⟩ := enrichOne_clean hc2
      rw [hEq, hv1, hv2, habs, enrichOne_err hs hu]

/-- C7 (witness): a window with unit systems 1 and 3 and non-NULL rain faults;
a clean single-row archive enriches an absent `hourRain` with the window
sum. -/
theorem get_record_enrichment_witness :
    RESTThread.get_record (fun _ => 0)
      ⟨true, false, [⟨10, 1, some 2, none⟩, ⟨20, 3, some 4, none⟩]⟩
      ⟨20, 1, fun _ => none⟩ = .error .valueError ∧
    ((((⟨20, 1, fun _ => none⟩ : Rec).setField "hourRain"
        (some (some 2))).setField "rain24" (some (some 2))).setField "dayRain"
        (some (some 2))).fields "hourRain" =
      some (rainAgg ⟨true, false, [⟨10, 1, some 2, none⟩]⟩ false (20 - 3600) 20).1 := by
  constructor
  · exact (get_record_enrichment (fun _ => 0)
      ⟨true, false, [⟨10, 1, some 2, none⟩, ⟨20, 3, some 4, none⟩]⟩
      ⟨20, 1, fun _ => none⟩ rfl).2.1 rfl (by decide) (by decide)
  · exact ((get_record_enrichment (fun _ => 0)
      ⟨true, false, [⟨10, 1, some 2, none⟩]⟩ ⟨20, 1, fun _ => none⟩ rfl).1
      _ rfl).1 rfl

/-- Enrichment only ever copies and adds fields: the timestamp is
preserved. -/
theorem get_record_dateTime (sod : Int → Int) (ar : Archive) (rec : Rec)
    (r' : Rec) (h : RESTThread.get_record sod ar rec = .ok r') :
    r'.dateTime = rec.dateTime := by
  simp only [RESTThread.get_record] at h
  split at h
  · exact Except.noConfusion h
  · split at h
    · injection h with h; subst h; rfl
    · split at h
      · exact Except.noConfusion h
      · split at h
        · injection h with h; subst h; rfl
        · split at h
          · exact Except.noConfusion h
          · injection h with h; subst h; rfl

/-- C10.  If the schema has a `rainRate` column but the archive holds no row
with the record's timestamp, the per-timestamp query of
`AWEKASThread.get_record` returns no row and subscripting it raises
`TypeError` — an unclassified exception, neither `FailedPost` nor `BadLogin` —
and under the worker's fault policy a record whose processing raises it
terminates the AWEKAS worker permanently; only the missing-column
(`OperationalError`) case is handled gracefully, leaving `rainRate` unset. -/
theorem awekas_missing_row_fatal (sod : Int → Int) (ar : Archive) (record : Rec)
    (r0 : Rec) (hbase : RESTThread.get_record sod ar record = .ok r0)
    (hRR : ar.hasRainRate = true)
    (hnone : ∀ row ∈ ar.rows, row.dateTime ≠ record.dateTime) :
    AWEKASThread.get_record sod ar record = .error .typeError ∧
    (PyExc.typeError ≠ PyExc.failedPost ∧ PyExc.typeError ≠ PyExc.badLogin) ∧
    (∀ (max_backlog : Nat) (stale post_interval : Option Int)
        (now lastpost : Int) (rest : List (Option Rec))
        (proc : Rec → Option PyExc),
      proc record = some .typeError →
      rest.length ≤ max_backlog →
      (skip_this_post stale post_interval lastpost now record.dateTime).1 = false →
      run_loop max_backlog stale post_interval now proc Rec.dateTime lastpost
          (some record :: rest) =
        ⟨[], [], [(record, some .typeError)],
         [(skip_this_post stale post_interval lastpost now record.dateTime).2],
         0, .fatal⟩) ∧
    (∀ ar' : Archive, ar'.hasRainRate = false →
      AWEKASThread.get_record sod ar' record =
        RESTThread.get_record sod ar' record) := by
  have hdt : r0.dateTime = record.dateTime :=
    get_record_dateTime sod ar record r0 hbase
  have hfind : ar.rows.find? (fun row => row.dateTime == r0.dateTime) = none := by
    rw [List.find?_eq_none]
    intro row hrow
    simp only [hdt, beq_iff_eq]
    exact hnone row hrow
  refine ⟨?_, ⟨by decide, by decide⟩, ?_, ?_⟩
  · simp [AWEKASThread.get_record, hbase, Archive.rainRateSql, hRR, hfind]
  · intro max_backlog stale post_interval now lastpost rest proc hproc hlen hacc
    exact run_loop_fatal_step (by omega) hacc _ hproc (by decide) (by decide)
  · intro ar' h'
    rcases hg : RESTThread.get_record sod ar' record with e | r <;>
      simp [AWEKASThread.get_record, hg, Archive.rainRateSql, h']

/-- C10 (witness): a one-row archive with a `rainRate` column but no row at
the record's timestamp makes `AWEKASThread.get_record` raise `TypeError`. -/
theorem awekas_missing_row_fatal_witness :
    AWEKASThread.get_record (fun _ => 0)
      ⟨true, true, [⟨10, 1, some 2, some 7⟩]⟩
      ⟨20, 1, fun _ => none⟩ = .error .typeError :=
  (awekas_missing_row_fatal (fun _ => 0)
    ⟨true, true, [⟨10, 1, some 2, some 7⟩]⟩ ⟨20, 1, fun _ => none⟩
    ((((⟨20, 1, fun _ => none⟩ : Rec).setField "hourRain"
      (some (some 2))).setField "rain24" (some (some 2))).setField "dayRain"
      (some (some 2)))
    rfl rfl (by decide)).1
